import Mathlib

set_option maxHeartbeats 1000000

/-!
Shallow embedding of `drivers/net/wireless/st/cw1200/besdbg.c` (BES2600 SDIO
debug driver).  External collaborators (the SDIO core, `copy_from_user` /
`copy_to_user`, `kmalloc`, the wakeup GPIO, `msleep`) are modelled by an
environment `Env` that fixes each collaborator's outcome for one call, and
every externally visible action the driver performs is recorded in a trace of
`Event`s, in program order.
-/

/-- One externally visible action of the driver, in program order. -/
inductive Event where
  /-- `gpiod_direction_output(self->wakeup_device_gpio, value)` -/
  | gpioOut (value : Nat)
  /-- `sdio_claim_host(self->func)` -/
  | claimHost
  /-- `sdio_release_host(self->func)` -/
  | releaseHost
  /-- `mmc_hw_reset(self->func->card)` -/
  | hwReset
  /-- `sdio_enable_func(self->func)` -/
  | enableFunc
  /-- `sdio_disable_func(self->func)` -/
  | disableFunc
  /-- `msleep(ms)` -/
  | sleep (ms : Nat)
  /-- `sdio_readb(self->func, addr, &ret)` -/
  | readb (addr : Nat)
  /-- `sdio_writeb(self->func, val, addr, &ret)` -/
  | writeb (addr : Nat) (val : Nat)
  /-- `sdio_memcpy_fromio(self->func, data, addr, len)` -/
  | blockRead (addr : Nat) (len : Nat)
  /-- `sdio_memcpy_toio(self->func, addr, data, len)` -/
  | blockWrite (addr : Nat) (len : Nat)
  /-- successful `kmalloc(size, GFP_KERNEL)` of a staging buffer -/
  | alloc (size : Nat)
  /-- `kfree(data)` of the staging buffer -/
  | free
  /-- `cdev_del(&self->cdev)` -/
  | cdevDel
  /-- `unregister_chrdev(self->major, "besdbg")` -/
  | unregChrdev
  /-- `device_destroy(besdbg_class, self->major)` -/
  | deviceDestroy
  deriving DecidableEq, Repr

/-- `struct besdbg_data { __u32 reg; __u32 len; __u64 data; }`.
`data` is the user-space pointer; `0` models NULL. -/
structure BesdbgData where
  reg : Nat
  len : Nat
  data : Nat
  deriving DecidableEq, Repr

/-- Outcomes of the external collaborators for one `besdbg_ioctl` call.
Each field fixes what the corresponding kernel service returns. -/
structure Env where
  /-- `sdio_readb` at an address: the byte produced and the error code set. -/
  readb : Nat → Nat × Int
  /-- `sdio_writeb` of a byte at an address: the error code set. -/
  writeb : Nat → Nat → Int
  /-- `sdio_memcpy_fromio(func, buf, addr, len)` result. -/
  blockReadRet : Nat → Nat → Int
  /-- `sdio_memcpy_toio(func, addr, buf, len)` result. -/
  blockWriteRet : Nat → Nat → Int
  /-- byte of device memory at an address, as filled in by a block read. -/
  blockByte : Nat → Nat
  /-- `mmc_hw_reset(func->card)` result. -/
  hwResetRet : Int
  /-- `sdio_enable_func(func)` result. -/
  enableFuncRet : Int
  /-- whether `kmalloc(r.len, GFP_KERNEL)` succeeds. -/
  kmallocOk : Bool
  /-- `copy_from_user(&r, argp, sizeof(r))`: `some r` on success, `none` on fault. -/
  hdr : Option BesdbgData
  /-- whether `copy_from_user(data, (void __user *)r.data, r.len)` succeeds. -/
  copyPayloadOk : Bool
  /-- whether `copy_to_user((void __user *)r.data, data, r.len)` succeeds. -/
  copyToUserOk : Bool
  /-- byte at offset `i` of the user payload buffer (for the write kinds). -/
  userByte : Nat → Nat

def EINVAL : Int := 22
def EFAULT : Int := 14
def ENOMEM : Int := 12

/-- Result of one register-codec call: the returned error code, the trace of
bus actions, and the bytes stored through `dst` (for reads). -/
structure LoopOut where
  ret : Int
  trace : List Event
  bytes : List Nat
  deriving DecidableEq, Repr

/-- The `while (count && !ret)` loop of `bes2600_sdio_reg_read`, entered with
`count > 0`.  Each iteration stores `sdio_readb`'s byte through `dst` (even on
error — the store precedes the `!ret` test), then advances `dst`, `reg`,
`count`. -/
def regReadLoop (env : Env) (reg : Nat) : Nat → LoopOut
  | 0 => ⟨0, [], []⟩
  | Nat.succ n =>
    if (env.readb reg).2 = 0 then
      ⟨(regReadLoop env (reg + 1) n).ret,
       Event.readb reg :: (regReadLoop env (reg + 1) n).trace,
       (env.readb reg).1 :: (regReadLoop env (reg + 1) n).bytes⟩
    else
      ⟨(env.readb reg).2, [Event.readb reg], [(env.readb reg).1]⟩

/-- `bes2600_sdio_reg_read(self, reg, dst, count)`.  `dstNull` models
`dst == NULL`; `count` keeps the C `int` type. -/
def bes2600_sdio_reg_read (env : Env) (reg : Nat) (dstNull : Bool) (count : Int) :
    LoopOut :=
  if count ≤ 0 ∨ dstNull = true then ⟨-EINVAL, [], []⟩
  else regReadLoop env reg count.toNat

/-- Result of one register-write-codec call. -/
structure WriteOut where
  ret : Int
  trace : List Event
  deriving DecidableEq, Repr

/-- The `while (count && !ret)` loop of `bes2600_sdio_reg_write`, entered with
`count > 0`; `src off` is the byte at offset `off` of the source buffer. -/
def regWriteLoop (env : Env) (src : Nat → Nat) (reg : Nat) (off : Nat) :
    Nat → WriteOut
  | 0 => ⟨0, []⟩
  | Nat.succ n =>
    if env.writeb reg (src off) = 0 then
      ⟨(regWriteLoop env src (reg + 1) (off + 1) n).ret,
       Event.writeb reg (src off) :: (regWriteLoop env src (reg + 1) (off + 1) n).trace⟩
    else
      ⟨env.writeb reg (src off), [Event.writeb reg (src off)]⟩

/-- `bes2600_sdio_reg_write(self, reg, src, count)`.  `srcNull` models
`src == NULL`; `src` gives the buffer contents by offset. -/
def bes2600_sdio_reg_write (env : Env) (reg : Nat) (srcNull : Bool)
    (src : Nat → Nat) (count : Int) : WriteOut :=
  if count ≤ 0 ∨ srcNull = true then ⟨-EINVAL, []⟩
  else regWriteLoop env src reg 0 count.toNat

/-- The five ioctl commands (plus any unrecognised `cmd`, the switch default). -/
inductive Cmd where
  | reset
  | regRead
  | regWrite
  | memRead
  | memWrite
  | other
  deriving DecidableEq, Repr

/-- Result of one `besdbg_ioctl` call: the returned `long`, the trace of
externally visible actions, and the bytes delivered to the caller's buffer by
a successful `copy_to_user` (`none` when no copy-out happened). -/
structure IoctlOut where
  ret : Int
  trace : List Event
  userOut : Option (List Nat)
  deriving DecidableEq, Repr

/-- `besdbg_ioctl(fp, cmd, arg)`, translated case by case from the source. -/
def besdbg_ioctl (env : Env) (cmd : Cmd) : IoctlOut :=
  match cmd with
  | Cmd.reset =>
    let t : List Event :=
      [Event.gpioOut 0, Event.claimHost, Event.hwReset, Event.gpioOut 1,
       Event.sleep 10, Event.enableFunc]
    if env.enableFuncRet ≠ 0 then
      ⟨env.enableFuncRet, t ++ [Event.releaseHost], none⟩
    else
      ⟨0, t ++ [Event.releaseHost], none⟩
  | Cmd.regRead =>
    match env.hdr with
    | none => ⟨-EFAULT, [], none⟩
    | some r =>
      if r.len > 32 ∨ r.len = 0 ∨ r.data = 0 then ⟨-EINVAL, [], none⟩
      else if env.kmallocOk = false then ⟨-ENOMEM, [], none⟩
      else if (bes2600_sdio_reg_read env r.reg false (r.len : Int)).ret ≠ 0 then
        ⟨(bes2600_sdio_reg_read env r.reg false (r.len : Int)).ret,
         ([Event.alloc r.len, Event.claimHost] ++
           (bes2600_sdio_reg_read env r.reg false (r.len : Int)).trace ++
           [Event.releaseHost]) ++ [Event.free], none⟩
      else if env.copyToUserOk = false then
        ⟨-EFAULT,
         ([Event.alloc r.len, Event.claimHost] ++
           (bes2600_sdio_reg_read env r.reg false (r.len : Int)).trace ++
           [Event.releaseHost]) ++ [Event.free], none⟩
      else
        ⟨0,
         ([Event.alloc r.len, Event.claimHost] ++
           (bes2600_sdio_reg_read env r.reg false (r.len : Int)).trace ++
           [Event.releaseHost]) ++ [Event.free],
         some (bes2600_sdio_reg_read env r.reg false (r.len : Int)).bytes⟩
  | Cmd.regWrite =>
    match env.hdr with
    | none => ⟨-EFAULT, [], none⟩
    | some r =>
      if r.len > 64 * 1024 ∨ r.len = 0 ∨ r.data = 0 then ⟨-EINVAL, [], none⟩
      else if env.kmallocOk = false then ⟨-ENOMEM, [], none⟩
      else if env.copyPayloadOk = false then
        -- the source returns -EFAULT here without kfree(data)
        ⟨-EFAULT, [Event.alloc r.len], none⟩
      else if (bes2600_sdio_reg_write env r.reg false env.userByte (r.len : Int)).ret ≠ 0 then
        ⟨(bes2600_sdio_reg_write env r.reg false env.userByte (r.len : Int)).ret,
         [Event.alloc r.len, Event.claimHost] ++
           (bes2600_sdio_reg_write env r.reg false env.userByte (r.len : Int)).trace ++
           [Event.releaseHost, Event.free], none⟩
      else
        ⟨0,
         [Event.alloc r.len, Event.claimHost] ++
           (bes2600_sdio_reg_write env r.reg false env.userByte (r.len : Int)).trace ++
           [Event.releaseHost, Event.free], none⟩
  | Cmd.memRead =>
    match env.hdr with
    | none => ⟨-EFAULT, [], none⟩
    | some r =>
      if r.len > 1024 * 64 ∨ r.len = 0 ∨ r.data = 0 then ⟨-EINVAL, [], none⟩
      else if env.kmallocOk = false then ⟨-ENOMEM, [], none⟩
      else if env.blockReadRet r.reg r.len ≠ 0 then
        ⟨env.blockReadRet r.reg r.len,
         [Event.alloc r.len, Event.claimHost, Event.blockRead r.reg r.len,
          Event.releaseHost, Event.free], none⟩
      else if env.copyToUserOk = false then
        ⟨-EFAULT,
         [Event.alloc r.len, Event.claimHost, Event.blockRead r.reg r.len,
          Event.releaseHost, Event.free], none⟩
      else
        ⟨0,
         [Event.alloc r.len, Event.claimHost, Event.blockRead r.reg r.len,
          Event.releaseHost, Event.free],
         some ((List.range r.len).map fun i => env.blockByte (r.reg + i))⟩
  | Cmd.memWrite =>
    match env.hdr with
    | none => ⟨-EFAULT, [], none⟩
    | some r =>
      if r.len > 64 * 1024 ∨ r.len = 0 ∨ r.data = 0 then ⟨-EINVAL, [], none⟩
      else if env.kmallocOk = false then ⟨-ENOMEM, [], none⟩
      else if env.copyPayloadOk = false then
        -- the source returns -EFAULT here without kfree(data)
        ⟨-EFAULT, [Event.alloc r.len], none⟩
      else if env.blockWriteRet r.reg r.len ≠ 0 then
        ⟨env.blockWriteRet r.reg r.len,
         [Event.alloc r.len, Event.claimHost, Event.blockWrite r.reg r.len,
          Event.releaseHost, Event.free], none⟩
      else
        ⟨0,
         [Event.alloc r.len, Event.claimHost, Event.blockWrite r.reg r.len,
          Event.releaseHost, Event.free], none⟩
  | Cmd.other => ⟨-EINVAL, [], none⟩

/-- Driver-instance state seen by `besdbg_disconnect`: whether
`sdio_get_drvdata(func)` still yields the private data. -/
structure DevState where
  attached : Bool
  deriving DecidableEq, Repr

/-- `besdbg_disconnect(func)`: returns `(new state, trace)`.  When drvdata is
already NULL it returns at once; otherwise it tears down and clears drvdata. -/
def besdbg_disconnect (s : DevState) : DevState × List Event :=
  if s.attached = true then
    (⟨false⟩,
     [Event.cdevDel, Event.unregChrdev, Event.deviceDestroy, Event.claimHost,
      Event.disableFunc, Event.releaseHost, Event.gpioOut 0])
  else (s, [])

/-- Host-claim discipline as a state machine over a trace: `some held'` is the
final held/not-held state, `none` marks a double claim or an unmatched
release. -/
def guardSteps : Bool → List Event → Option Bool
  | held, [] => some held
  | held, Event.claimHost :: rest =>
    cond held none (guardSteps true rest)
  | held, Event.releaseHost :: rest =>
    cond held (guardSteps false rest) none
  | held, _ :: rest => guardSteps held rest

/-- Number of trace events satisfying `p`. -/
def countEv (p : Event → Bool) (t : List Event) : Nat := (t.filter p).length

def isAlloc : Event → Bool
  | Event.alloc _ => true
  | _ => false

def isFree : Event → Bool
  | Event.free => true
  | _ => false

/-- An environment in which every collaborator succeeds and every byte is 0. -/
def envDefault : Env where
  readb := fun _ => (0, 0)
  writeb := fun _ _ => 0
  blockReadRet := fun _ _ => 0
  blockWriteRet := fun _ _ => 0
  blockByte := fun _ => 0
  hwResetRet := 0
  enableFuncRet := 0
  kmallocOk := true
  hdr := none
  copyPayloadOk := true
  copyToUserOk := true
  userByte := fun _ => 0

theorem guardSteps_alloc (held : Bool) (n : Nat) (l : List Event) :
    guardSteps held (Event.alloc n :: l) = guardSteps held l := rfl

theorem guardSteps_claim_free (l : List Event) :
    guardSteps false (Event.claimHost :: l) = guardSteps true l := rfl

theorem guardSteps_release_held (l : List Event) :
    guardSteps true (Event.releaseHost :: l) = guardSteps false l := rfl

theorem guardSteps_readb (held : Bool) (a : Nat) (l : List Event) :
    guardSteps held (Event.readb a :: l) = guardSteps held l := rfl

theorem guardSteps_writeb (held : Bool) (a v : Nat) (l : List Event) :
    guardSteps held (Event.writeb a v :: l) = guardSteps held l := rfl

/-- Events of a transfer loop (single-byte reads and writes) do not change the
guard state. -/
theorem guardSteps_skip (held : Bool) (t rest : List Event)
    (h : ∀ e ∈ t, (∃ a, e = Event.readb a) ∨ ∃ a v, e = Event.writeb a v) :
    guardSteps held (t ++ rest) = guardSteps held rest := by
  induction t with
  | nil => rfl
  | cons e t ih =>
    have he := h e (List.mem_cons_self e t)
    have ht : ∀ x ∈ t, (∃ a, x = Event.readb a) ∨ ∃ a v, x = Event.writeb a v :=
      fun x hx => h x (List.mem_cons_of_mem e hx)
    rcases he with ⟨a, rfl⟩ | ⟨a, v, rfl⟩
    · rw [List.cons_append, guardSteps_readb, ih ht]
    · rw [List.cons_append, guardSteps_writeb, ih ht]

theorem regReadLoop_trace_readb (env : Env) :
    ∀ (n reg : Nat), ∀ e ∈ (regReadLoop env reg n).trace, ∃ a, e = Event.readb a := by
  intro n
  induction n with
  | zero => intro reg e he; simp [regReadLoop] at he
  | succ n ih =>
    intro reg e he
    by_cases hc : (env.readb reg).2 = 0
    · simp only [regReadLoop] at he
      rw [if_pos hc] at he
      rcases List.mem_cons.mp he with rfl | h
      · exact ⟨reg, rfl⟩
      · exact ih (reg + 1) e h
    · simp only [regReadLoop] at he
      rw [if_neg hc] at he
      rcases List.mem_cons.mp he with rfl | h
      · exact ⟨reg, rfl⟩
      · simp at h

theorem regWriteLoop_trace_writeb (env : Env) (src : Nat → Nat) :
    ∀ (n reg off : Nat), ∀ e ∈ (regWriteLoop env src reg off n).trace,
      ∃ a v, e = Event.writeb a v := by
  intro n
  induction n with
  | zero => intro reg off e he; simp [regWriteLoop] at he
  | succ n ih =>
    intro reg off e he
    by_cases hc : env.writeb reg (src off) = 0
    · simp only [regWriteLoop] at he
      rw [if_pos hc] at he
      rcases List.mem_cons.mp he with rfl | h
      · exact ⟨reg, src off, rfl⟩
      · exact ih (reg + 1) (off + 1) e h
    · simp only [regWriteLoop] at he
      rw [if_neg hc] at he
      rcases List.mem_cons.mp he with rfl | h
      · exact ⟨reg, src off, rfl⟩
      · simp at h

theorem reg_read_trace_readb (env : Env) (reg : Nat) (dstNull : Bool) (count : Int) :
    ∀ e ∈ (bes2600_sdio_reg_read env reg dstNull count).trace,
      ∃ a, e = Event.readb a := by
  intro e he
  unfold bes2600_sdio_reg_read at he
  split at he
  · simp at he
  · exact regReadLoop_trace_readb env count.toNat reg e he

theorem reg_write_trace_writeb (env : Env) (reg : Nat) (srcNull : Bool)
    (src : Nat → Nat) (count : Int) :
    ∀ e ∈ (bes2600_sdio_reg_write env reg srcNull src count).trace,
      ∃ a v, e = Event.writeb a v := by
  intro e he
  unfold bes2600_sdio_reg_write at he
  split at he
  · simp at he
  · exact regWriteLoop_trace_writeb env src count.toNat reg 0 e he

theorem guard_wrap_ok (n : Nat) (t : List Event)
    (h : ∀ e ∈ t, (∃ a, e = Event.readb a) ∨ ∃ a v, e = Event.writeb a v) :
    guardSteps false
      (([Event.alloc n, Event.claimHost] ++ t ++ [Event.releaseHost]) ++
        [Event.free]) = some false := by
  simp only [List.append_assoc, List.cons_append, List.nil_append]
  rw [guardSteps_alloc, guardSteps_claim_free, guardSteps_skip true t _ h]
  rfl

theorem guard_wrap_ok2 (n : Nat) (t : List Event)
    (h : ∀ e ∈ t, (∃ a, e = Event.readb a) ∨ ∃ a v, e = Event.writeb a v) :
    guardSteps false
      ([Event.alloc n, Event.claimHost] ++ t ++
        [Event.releaseHost, Event.free]) = some false := by
  simp only [List.append_assoc, List.cons_append, List.nil_append]
  rw [guardSteps_alloc, guardSteps_claim_free, guardSteps_skip true t _ h]
  rfl

/-- C4: every reset invocation performs, in strict order, wake deassert,
hardware reset, wake reassert, a 10 ms settle delay, and function re-enable;
a hardware-reset failure is only logged (the trace is the same either way),
while a re-enable failure is returned as the call's result without a further
wake-line change (the only wake deassert is the leading one). -/
theorem c4_reset_sequence (env : Env) :
    (besdbg_ioctl env Cmd.reset).trace =
      [Event.gpioOut 0, Event.claimHost, Event.hwReset, Event.gpioOut 1,
       Event.sleep 10, Event.enableFunc, Event.releaseHost] ∧
    (besdbg_ioctl env Cmd.reset).ret =
      (if env.enableFuncRet = 0 then 0 else env.enableFuncRet) := by
  by_cases h : env.enableFuncRet = 0
  · simp only [besdbg_ioctl]
    rw [if_neg (by simp [h]), if_pos h]
    exact ⟨rfl, rfl⟩
  · simp only [besdbg_ioctl]
    rw [if_pos h, if_neg h]
    exact ⟨rfl, rfl⟩

/-- C10: in every reset invocation, the whole segment from the hardware reset
through the wake reassert, the settle delay, and the function re-enable lies
between one `sdio_claim_host` and the matching `sdio_release_host`, with no
release (or further claim) inside it: the bus stays claimed across the entire
sequence, so no other request's transfer can interleave with it. -/
theorem c10_reset_guard_spans_sequence (env : Env) :
    ∃ mid, (besdbg_ioctl env Cmd.reset).trace =
        [Event.gpioOut 0] ++ [Event.claimHost] ++ mid ++ [Event.releaseHost] ∧
      mid = [Event.hwReset, Event.gpioOut 1, Event.sleep 10, Event.enableFunc] ∧
      Event.claimHost ∉ mid ∧ Event.releaseHost ∉ mid := by
  refine ⟨[Event.hwReset, Event.gpioOut 1, Event.sleep 10, Event.enableFunc],
    ?_, rfl, by decide, by decide⟩
  by_cases h : env.enableFuncRet = 0
  · simp only [besdbg_ioctl]
    rw [if_neg (by simp [h])]
    rfl
  · simp only [besdbg_ioctl]
    rw [if_pos h]
    rfl

/-- C9: a second `besdbg_disconnect` on the same device is a no-op: it sees
the cleared drvdata and returns at once, so across the two calls the wake
line is deasserted at most once, the function is disabled at most once, and
the char-device teardown runs at most once. -/
theorem c9_disconnect_idempotent (s : DevState) :
    (besdbg_disconnect (besdbg_disconnect s).1).2 = [] ∧
    (besdbg_disconnect (besdbg_disconnect s).1).1 = (besdbg_disconnect s).1 ∧
    countEv (fun e => e == Event.gpioOut 0)
      ((besdbg_disconnect s).2 ++ (besdbg_disconnect (besdbg_disconnect s).1).2) ≤ 1 ∧
    countEv (fun e => e == Event.disableFunc)
      ((besdbg_disconnect s).2 ++ (besdbg_disconnect (besdbg_disconnect s).1).2) ≤ 1 ∧
    countEv (fun e => e == Event.cdevDel)
      ((besdbg_disconnect s).2 ++ (besdbg_disconnect (besdbg_disconnect s).1).2) ≤ 1 := by
  obtain ⟨a⟩ := s
  cases a <;> decide

/-- C1: for every command — the four data-carrying dispatch operations and the
reset lifecycle operation — and every collaborator outcome, the trace of
`besdbg_ioctl` obeys the host-claim discipline: `sdio_claim_host` is never
taken twice without an intervening release, every release matches a claim, and
the host is not held when the call returns. -/
theorem c1_guard_balanced (env : Env) (cmd : Cmd) :
    guardSteps false (besdbg_ioctl env cmd).trace = some false := by
  cases cmd with
  | reset =>
    by_cases h : env.enableFuncRet ≠ 0
    · simp only [besdbg_ioctl]
      rw [if_pos h]
      rfl
    · simp only [besdbg_ioctl]
      rw [if_neg h]
      rfl
  | regRead =>
    rcases hh : env.hdr with _ | r
    · simp only [besdbg_ioctl, hh]
      rfl
    · simp only [besdbg_ioctl, hh]
      have honly : ∀ e ∈ (bes2600_sdio_reg_read env r.reg false (r.len : Int)).trace,
          (∃ a, e = Event.readb a) ∨ ∃ a v, e = Event.writeb a v :=
        fun e he => Or.inl (reg_read_trace_readb env r.reg false (r.len : Int) e he)
      by_cases h1 : r.len > 32 ∨ r.len = 0 ∨ r.data = 0
      · rw [if_pos h1]
        rfl
      rw [if_neg h1]
      by_cases h2 : env.kmallocOk = false
      · rw [if_pos h2]
        rfl
      rw [if_neg h2]
      by_cases h3 : (bes2600_sdio_reg_read env r.reg false (r.len : Int)).ret ≠ 0
      · rw [if_pos h3]
        exact guard_wrap_ok r.len _ honly
      rw [if_neg h3]
      by_cases h4 : env.copyToUserOk = false
      · rw [if_pos h4]
        exact guard_wrap_ok r.len _ honly
      rw [if_neg h4]
      exact guard_wrap_ok r.len _ honly
  | regWrite =>
    rcases hh : env.hdr with _ | r
    · simp only [besdbg_ioctl, hh]
      rfl
    · simp only [besdbg_ioctl, hh]
      have honly : ∀ e ∈ (bes2600_sdio_reg_write env r.reg false env.userByte (r.len : Int)).trace,
          (∃ a, e = Event.readb a) ∨ ∃ a v, e = Event.writeb a v :=
        fun e he => Or.inr (reg_write_trace_writeb env r.reg false env.userByte (r.len : Int) e he)
      by_cases h1 : r.len > 64 * 1024 ∨ r.len = 0 ∨ r.data = 0
      · rw [if_pos h1]
        rfl
      rw [if_neg h1]
      by_cases h2 : env.kmallocOk = false
      · rw [if_pos h2]
        rfl
      rw [if_neg h2]
      by_cases h3 : env.copyPayloadOk = false
      · rw [if_pos h3]
        rfl
      rw [if_neg h3]
      by_cases h4 : (bes2600_sdio_reg_write env r.reg false env.userByte (r.len : Int)).ret ≠ 0
      · rw [if_pos h4]
        exact guard_wrap_ok2 r.len _ honly
      rw [if_neg h4]
      exact guard_wrap_ok2 r.len _ honly
  | memRead =>
    rcases hh : env.hdr with _ | r
    · simp only [besdbg_ioctl, hh]
      rfl
    · simp only [besdbg_ioctl, hh]
      by_cases h1 : r.len > 1024 * 64 ∨ r.len = 0 ∨ r.data = 0
      · rw [if_pos h1]
        rfl
      rw [if_neg h1]
      by_cases h2 : env.kmallocOk = false
      · rw [if_pos h2]
        rfl
      rw [if_neg h2]
      by_cases h3 : env.blockReadRet r.reg r.len ≠ 0
      · rw [if_pos h3]
        rfl
      rw [if_neg h3]
      by_cases h4 : env.copyToUserOk = false
      · rw [if_pos h4]
        rfl
      rw [if_neg h4]
      rfl
  | memWrite =>
    rcases hh : env.hdr with _ | r
    · simp only [besdbg_ioctl, hh]
      rfl
    · simp only [besdbg_ioctl, hh]
      by_cases h1 : r.len > 64 * 1024 ∨ r.len = 0 ∨ r.data = 0
      · rw [if_pos h1]
        rfl
      rw [if_neg h1]
      by_cases h2 : env.kmallocOk = false
      · rw [if_pos h2]
        rfl
      rw [if_neg h2]
      by_cases h3 : env.copyPayloadOk = false
      · rw [if_pos h3]
        rfl
      rw [if_neg h3]
      by_cases h4 : env.blockWriteRet r.reg r.len ≠ 0
      · rw [if_pos h4]
        rfl
      rw [if_neg h4]
      rfl
  | other =>
    rfl

/-- C2: for each data-carrying command, if the header copy succeeds but the
request has length 0, a length over its kind's bound (32 for RegisterRead,
64 KiB for the others), or a NULL payload pointer, then `besdbg_ioctl`
returns `-EINVAL` and its trace is empty: no allocation, no host claim, no
transfer, no lifecycle action. -/
theorem c2_invalid_request_rejected (env : Env) (cmd : Cmd) (r : BesdbgData)
    (hhdr : env.hdr = some r)
    (hkind : cmd = Cmd.regRead ∨ cmd = Cmd.regWrite ∨ cmd = Cmd.memRead ∨
      cmd = Cmd.memWrite)
    (hbad : r.len = 0 ∨ r.data = 0 ∨ (cmd = Cmd.regRead ∧ r.len > 32) ∨
      (cmd ≠ Cmd.regRead ∧ r.len > 64 * 1024)) :
    (besdbg_ioctl env cmd).ret = -EINVAL ∧ (besdbg_ioctl env cmd).trace = [] := by
  rcases hkind with rfl | rfl | rfl | rfl
  · have hc : r.len > 32 ∨ r.len = 0 ∨ r.data = 0 := by
      rcases hbad with h | h | ⟨_, h⟩ | ⟨hne, _⟩
      · exact Or.inr (Or.inl h)
      · exact Or.inr (Or.inr h)
      · exact Or.inl h
      · exact absurd rfl hne
    simp only [besdbg_ioctl, hhdr]
    rw [if_pos hc]
    exact ⟨rfl, rfl⟩
  · have hc : r.len > 64 * 1024 ∨ r.len = 0 ∨ r.data = 0 := by
      rcases hbad with h | h | ⟨h, _⟩ | ⟨_, h⟩
      · exact Or.inr (Or.inl h)
      · exact Or.inr (Or.inr h)
      · exact absurd h (by decide)
      · exact Or.inl h
    simp only [besdbg_ioctl, hhdr]
    rw [if_pos hc]
    exact ⟨rfl, rfl⟩
  · have hc : r.len > 1024 * 64 ∨ r.len = 0 ∨ r.data = 0 := by
      rcases hbad with h | h | ⟨h, _⟩ | ⟨_, h⟩
      · exact Or.inr (Or.inl h)
      · exact Or.inr (Or.inr h)
      · exact absurd h (by decide)
      · exact Or.inl (by omega)
    simp only [besdbg_ioctl, hhdr]
    rw [if_pos hc]
    exact ⟨rfl, rfl⟩
  · have hc : r.len > 64 * 1024 ∨ r.len = 0 ∨ r.data = 0 := by
      rcases hbad with h | h | ⟨h, _⟩ | ⟨_, h⟩
      · exact Or.inr (Or.inl h)
      · exact Or.inr (Or.inr h)
      · exact absurd h (by decide)
      · exact Or.inl h
    simp only [besdbg_ioctl, hhdr]
    rw [if_pos hc]
    exact ⟨rfl, rfl⟩

/-- The spec's concrete scenario: BlockWrite with length 70000 (> 64 KiB). -/
def envC2 : Env := { envDefault with hdr := some ⟨4096, 70000, 5⟩ }

theorem c2_witness :
    (envC2.hdr = some ⟨4096, 70000, 5⟩ ∧
      (Cmd.memWrite = Cmd.regRead ∨ Cmd.memWrite = Cmd.regWrite ∨
        Cmd.memWrite = Cmd.memRead ∨ Cmd.memWrite = Cmd.memWrite)) ∧
    (besdbg_ioctl envC2 Cmd.memWrite).ret = -EINVAL ∧
    (besdbg_ioctl envC2 Cmd.memWrite).trace = [] :=
  ⟨⟨rfl, by decide⟩,
    c2_invalid_request_rejected envC2 Cmd.memWrite ⟨4096, 70000, 5⟩ rfl
      (Or.inr (Or.inr (Or.inr rfl)))
      (Or.inr (Or.inr (Or.inr ⟨by decide, by decide⟩)))⟩

/-- RegisterWrite / BlockWrite whose payload `copy_from_user` faults. -/
def envC3 : Env := { envDefault with hdr := some ⟨0, 4, 1⟩, copyPayloadOk := false }

/-- C3 (failing input): on a RegisterWrite or BlockWrite whose payload copy
from the caller faults after the staging buffer is allocated, `besdbg_ioctl`
returns `-EFAULT` with one allocation and zero frees in its trace — the
staging buffer is leaked, contradicting the claim that every exit path frees
it. -/
theorem c3_staging_buffer_leak :
    (besdbg_ioctl envC3 Cmd.regWrite).ret = -EFAULT ∧
    countEv isAlloc (besdbg_ioctl envC3 Cmd.regWrite).trace = 1 ∧
    countEv isFree (besdbg_ioctl envC3 Cmd.regWrite).trace = 0 ∧
    (besdbg_ioctl envC3 Cmd.memWrite).ret = -EFAULT ∧
    countEv isAlloc (besdbg_ioctl envC3 Cmd.memWrite).trace = 1 ∧
    countEv isFree (besdbg_ioctl envC3 Cmd.memWrite).trace = 0 := by
  decide

/-- C8 (counterexample): the claim says the register codec functions do not
check `count > 0` / non-NULL themselves, so that on such inputs they would
simply run the loop zero times and return the initial `ret = 0`.  In fact
both codecs validate and return `-EINVAL` (≠ 0) on `count = 0` and on a NULL
buffer: the check at lines 58–59 and 76–77 of the source is real. -/
theorem c8_counterexample :
    (bes2600_sdio_reg_read envDefault 0 false 0).ret = -EINVAL ∧
    ¬(bes2600_sdio_reg_read envDefault 0 false 0).ret = 0 ∧
    (bes2600_sdio_reg_read envDefault 0 true 4).ret = -EINVAL ∧
    (bes2600_sdio_reg_write envDefault 0 true (fun _ => 0) 4).ret = -EINVAL ∧
    ¬(bes2600_sdio_reg_write envDefault 0 true (fun _ => 0) 4).ret = 0 := by
  decide

/-- C8 (amended): the register codec functions themselves DO check
`count <= 0` and NULL buffer pointers, returning `-EINVAL` with no bus
transfer; the Request Dispatcher additionally validates, so on the dispatch
path the codec checks are redundant. -/
theorem c8_codec_does_check (env : Env) (reg : Nat) (dstNull srcNull : Bool)
    (src : Nat → Nat) (count : Int)
    (hr : count ≤ 0 ∨ dstNull = true)
    (hw : count ≤ 0 ∨ srcNull = true) :
    (bes2600_sdio_reg_read env reg dstNull count).ret = -EINVAL ∧
    (bes2600_sdio_reg_read env reg dstNull count).trace = [] ∧
    (bes2600_sdio_reg_write env reg srcNull src count).ret = -EINVAL ∧
    (bes2600_sdio_reg_write env reg srcNull src count).trace = [] := by
  unfold bes2600_sdio_reg_read bes2600_sdio_reg_write
  rw [if_pos hr, if_pos hw]
  exact ⟨rfl, rfl, rfl, rfl⟩

theorem c8_witness :
    (((0 : Int) ≤ 0 ∨ (false = true)) ∧ ((0 : Int) ≤ 0 ∨ (true = true))) ∧
    (bes2600_sdio_reg_read envDefault 7 false 0).ret = -EINVAL ∧
    (bes2600_sdio_reg_read envDefault 7 false 0).trace = [] ∧
    (bes2600_sdio_reg_write envDefault 7 true (fun _ => 0) 0).ret = -EINVAL ∧
    (bes2600_sdio_reg_write envDefault 7 true (fun _ => 0) 0).trace = [] :=
  ⟨⟨Or.inl (by decide), Or.inl (by decide)⟩,
    c8_codec_does_check envDefault 7 false true (fun _ => 0) 0
      (Or.inl (by decide)) (Or.inl (by decide))⟩

theorem range_succ_map_shift {α : Type} (f : Nat → α) (n : Nat) :
    (List.range (n + 1)).map f = f 0 :: (List.range n).map fun i => f (i + 1) := by
  rw [List.range_succ_eq_map, List.map_cons, List.map_map]
  rfl

/-- When every byte read succeeds, the register-read loop returns 0, issues
one single-byte read per byte at consecutive ascending addresses, and stores
the bus-read bytes in that order. -/
theorem regReadLoop_success (env : Env) :
    ∀ (n reg : Nat), (∀ i, i < n → (env.readb (reg + i)).2 = 0) →
    regReadLoop env reg n =
      ⟨0, (List.range n).map fun i => Event.readb (reg + i),
        (List.range n).map fun i => (env.readb (reg + i)).1⟩ := by
  intro n
  induction n with
  | zero => intro reg _; rfl
  | succ n ih =>
    intro reg h
    have h0 : (env.readb reg).2 = 0 := by
      have := h 0 (Nat.succ_pos n)
      rwa [Nat.add_zero] at this
    have hshift : ∀ i, i < n → (env.readb (reg + 1 + i)).2 = 0 := by
      intro i hi
      have := h (i + 1) (Nat.succ_lt_succ hi)
      rwa [show reg + (i + 1) = reg + 1 + i from by omega] at this
    have e1 : (fun i => Event.readb (reg + (i + 1))) =
        fun i => Event.readb (reg + 1 + i) := by
      funext i
      rw [show reg + (i + 1) = reg + 1 + i from by omega]
    have e2 : (fun i => (env.readb (reg + (i + 1))).1) =
        fun i => (env.readb (reg + 1 + i)).1 := by
      funext i
      rw [show reg + (i + 1) = reg + 1 + i from by omega]
    simp only [regReadLoop]
    rw [if_pos h0, ih (reg + 1) hshift,
      range_succ_map_shift (fun i => Event.readb (reg + i)) n,
      range_succ_map_shift (fun i => (env.readb (reg + i)).1) n, e1, e2]
    rfl

/-- `bes2600_sdio_reg_read` with a non-NULL buffer and positive count runs the
byte loop. -/
theorem reg_read_pos (env : Env) (reg n : Nat) (hn : 0 < n) :
    bes2600_sdio_reg_read env reg false (n : Int) = regReadLoop env reg n := by
  unfold bes2600_sdio_reg_read
  rw [if_neg (by simp only [Bool.false_eq_true, or_false]; omega),
    Int.toNat_natCast]

/-- `bes2600_sdio_reg_write` with a non-NULL buffer and positive count runs
the byte loop. -/
theorem reg_write_pos (env : Env) (src : Nat → Nat) (reg n : Nat) (hn : 0 < n) :
    bes2600_sdio_reg_write env reg false src (n : Int) =
      regWriteLoop env src reg 0 n := by
  unfold bes2600_sdio_reg_write
  rw [if_neg (by simp only [Bool.false_eq_true, or_false]; omega),
    Int.toNat_natCast]

/-- C5: for every successful RegisterRead of length N (0 < N ≤ 32), the
dispatcher returns 0, the trace contains exactly N single-byte bus reads, in
order, at the consecutive addresses `addr, addr+1, …, addr+N-1` (wrapped in
one alloc/claim … release/free bracket), and the bytes delivered to the
caller are the bus-read results in that same order. -/
theorem c5_regread_reads_consecutive (env : Env) (r : BesdbgData)
    (hhdr : env.hdr = some r) (hpos : 0 < r.len) (hlen : r.len ≤ 32)
    (hdata : r.data ≠ 0) (hmal : env.kmallocOk = true)
    (hcopy : env.copyToUserOk = true)
    (hok : ∀ i, i < r.len → (env.readb (r.reg + i)).2 = 0) :
    (besdbg_ioctl env Cmd.regRead).ret = 0 ∧
    (besdbg_ioctl env Cmd.regRead).trace =
      [Event.alloc r.len, Event.claimHost] ++
        ((List.range r.len).map fun i => Event.readb (r.reg + i)) ++
      [Event.releaseHost, Event.free] ∧
    (besdbg_ioctl env Cmd.regRead).userOut =
      some ((List.range r.len).map fun i => (env.readb (r.reg + i)).1) := by
  have hvalid : ¬(r.len > 32 ∨ r.len = 0 ∨ r.data = 0) := by
    push_neg
    exact ⟨by omega, by omega, hdata⟩
  have hm : ¬(env.kmallocOk = false) := by simp [hmal]
  have hc : ¬(env.copyToUserOk = false) := by simp [hcopy]
  simp only [besdbg_ioctl, hhdr]
  rw [if_neg hvalid, if_neg hm, reg_read_pos env r.reg r.len hpos,
    regReadLoop_success env r.len r.reg hok]
  rw [if_neg (fun hcon => hcon rfl), if_neg hc]
  refine ⟨rfl, ?_, rfl⟩
  simp [List.append_assoc]

/-- The spec's concrete scenario: four register bytes 0xAA 0xBB 0xCC 0xDD at
addresses 0x10–0x13. -/
def envC5 : Env :=
  { envDefault with
    hdr := some ⟨16, 4, 1⟩,
    readb := fun a =>
      (if a = 16 then 170 else if a = 17 then 187 else
       if a = 18 then 204 else if a = 19 then 221 else 0, 0) }

theorem c5_witness :
    ((0 < 4) ∧ (∀ i, i < 4 → (envC5.readb (16 + i)).2 = 0)) ∧
    (besdbg_ioctl envC5 Cmd.regRead).ret = 0 ∧
    (besdbg_ioctl envC5 Cmd.regRead).userOut = some [170, 187, 204, 221] := by
  have h := c5_regread_reads_consecutive envC5 ⟨16, 4, 1⟩ rfl (by decide)
    (by decide) (by decide) rfl rfl (by decide)
  refine ⟨⟨by decide, by decide⟩, h.1, ?_⟩
  rw [h.2.2]
  rfl

/-- If bytes `0..k-1` read fine and byte `k` fails (`k < count`), the
register-read loop stops at byte `k`: it returns that byte's error code and
its trace holds exactly the `k + 1` attempted single-byte reads, in order. -/
theorem regReadLoop_stops (env : Env) :
    ∀ (k n reg : Nat), k < n →
    (∀ i, i < k → (env.readb (reg + i)).2 = 0) →
    ¬(env.readb (reg + k)).2 = 0 →
    (regReadLoop env reg n).ret = (env.readb (reg + k)).2 ∧
    (regReadLoop env reg n).trace =
      (List.range (k + 1)).map fun i => Event.readb (reg + i) := by
  intro k
  induction k with
  | zero =>
    intro n reg hk _ hbad
    obtain ⟨m, rfl⟩ : ∃ m, n = m + 1 := ⟨n - 1, by omega⟩
    rw [Nat.add_zero] at hbad
    simp only [regReadLoop]
    rw [if_neg hbad]
    exact ⟨rfl, rfl⟩
  | succ k ih =>
    intro n reg hk hok hbad
    obtain ⟨m, rfl⟩ : ∃ m, n = m + 1 := ⟨n - 1, by omega⟩
    have h0 : (env.readb reg).2 = 0 := by
      have := hok 0 (Nat.succ_pos k)
      rwa [Nat.add_zero] at this
    have hok' : ∀ i, i < k → (env.readb (reg + 1 + i)).2 = 0 := by
      intro i hi
      have := hok (i + 1) (Nat.succ_lt_succ hi)
      rwa [show reg + (i + 1) = reg + 1 + i from by omega] at this
    have hbad' : ¬(env.readb (reg + 1 + k)).2 = 0 := by
      rw [show reg + 1 + k = reg + (k + 1) from by omega]
      exact hbad
    have hr := ih m (reg + 1) (by omega) hok' hbad'
    have e1 : (fun i => Event.readb (reg + (i + 1))) =
        fun i => Event.readb (reg + 1 + i) := by
      funext i
      rw [show reg + (i + 1) = reg + 1 + i from by omega]
    simp only [regReadLoop]
    rw [if_pos h0]
    constructor
    · rw [show reg + (k + 1) = reg + 1 + k from by omega]
      exact hr.1
    · rw [range_succ_map_shift (fun i => Event.readb (reg + i)) (k + 1), e1]
      show Event.readb reg :: (regReadLoop env (reg + 1) m).trace = _
      rw [hr.2]
      rfl

/-- Write-loop analogue: bytes `0..k-1` write fine, byte `k` fails. -/
theorem regWriteLoop_stops (env : Env) (src : Nat → Nat) :
    ∀ (k n reg off : Nat), k < n →
    (∀ i, i < k → env.writeb (reg + i) (src (off + i)) = 0) →
    ¬env.writeb (reg + k) (src (off + k)) = 0 →
    (regWriteLoop env src reg off n).ret = env.writeb (reg + k) (src (off + k)) ∧
    (regWriteLoop env src reg off n).trace =
      (List.range (k + 1)).map fun i => Event.writeb (reg + i) (src (off + i)) := by
  intro k
  induction k with
  | zero =>
    intro n reg off hk _ hbad
    obtain ⟨m, rfl⟩ : ∃ m, n = m + 1 := ⟨n - 1, by omega⟩
    rw [Nat.add_zero, Nat.add_zero] at hbad
    simp only [regWriteLoop]
    rw [if_neg hbad]
    exact ⟨rfl, rfl⟩
  | succ k ih =>
    intro n reg off hk hok hbad
    obtain ⟨m, rfl⟩ : ∃ m, n = m + 1 := ⟨n - 1, by omega⟩
    have h0 : env.writeb reg (src off) = 0 := by
      have := hok 0 (Nat.succ_pos k)
      rwa [Nat.add_zero, Nat.add_zero] at this
    have hok' : ∀ i, i < k → env.writeb (reg + 1 + i) (src (off + 1 + i)) = 0 := by
      intro i hi
      have := hok (i + 1) (Nat.succ_lt_succ hi)
      rwa [show reg + (i + 1) = reg + 1 + i from by omega,
        show off + (i + 1) = off + 1 + i from by omega] at this
    have hbad' : ¬env.writeb (reg + 1 + k) (src (off + 1 + k)) = 0 := by
      rw [show reg + 1 + k = reg + (k + 1) from by omega,
        show off + 1 + k = off + (k + 1) from by omega]
      exact hbad
    have hr := ih m (reg + 1) (off + 1) (by omega) hok' hbad'
    have e1 : (fun i => Event.writeb (reg + (i + 1)) (src (off + (i + 1)))) =
        fun i => Event.writeb (reg + 1 + i) (src (off + 1 + i)) := by
      funext i
      rw [show reg + (i + 1) = reg + 1 + i from by omega,
        show off + (i + 1) = off + 1 + i from by omega]
    simp only [regWriteLoop]
    rw [if_pos h0]
    constructor
    · rw [show reg + (k + 1) = reg + 1 + k from by omega,
        show off + (k + 1) = off + 1 + k from by omega]
      exact hr.1
    · rw [range_succ_map_shift
        (fun i => Event.writeb (reg + i) (src (off + i))) (k + 1), e1]
      show Event.writeb reg (src off) :: (regWriteLoop env src (reg + 1) (off + 1) m).trace = _
      rw [hr.2]
      rfl

def isReadb : Event → Bool
  | Event.readb _ => true
  | _ => false

/-- C6: if the single-byte transfer for byte `k` of a register read fails
(after `k` successful bytes), the dispatcher returns that bus error, the trace
holds exactly the `k + 1` attempted reads — none of the remaining bytes is
attempted — and nothing is copied back to the caller (`userOut = none`); and
the register-write codec likewise stops at its first failing byte, returning
its error with exactly the attempted writes in its trace. -/
theorem c6_partial_failure_stops (env : Env) (r : BesdbgData) (k : Nat)
    (hhdr : env.hdr = some r) (hlen : r.len ≤ 32) (hdata : r.data ≠ 0)
    (hmal : env.kmallocOk = true)
    (hk : k < r.len)
    (hok : ∀ i, i < k → (env.readb (r.reg + i)).2 = 0)
    (hbad : ¬(env.readb (r.reg + k)).2 = 0)
    (kw cw regw : Nat) (src : Nat → Nat)
    (hkw : kw < cw)
    (hokw : ∀ i, i < kw → env.writeb (regw + i) (src i) = 0)
    (hbadw : ¬env.writeb (regw + kw) (src kw) = 0) :
    ((besdbg_ioctl env Cmd.regRead).ret = (env.readb (r.reg + k)).2 ∧
     (besdbg_ioctl env Cmd.regRead).trace =
       ([Event.alloc r.len, Event.claimHost] ++
         ((List.range (k + 1)).map fun i => Event.readb (r.reg + i)) ++
         [Event.releaseHost]) ++ [Event.free] ∧
     (besdbg_ioctl env Cmd.regRead).userOut = none) ∧
    ((bes2600_sdio_reg_write env regw false src (cw : Int)).ret =
       env.writeb (regw + kw) (src kw) ∧
     (bes2600_sdio_reg_write env regw false src (cw : Int)).trace =
       (List.range (kw + 1)).map fun i => Event.writeb (regw + i) (src i)) := by
  have hvalid : ¬(r.len > 32 ∨ r.len = 0 ∨ r.data = 0) := by
    push_neg
    exact ⟨by omega, by omega, hdata⟩
  have hm : ¬(env.kmallocOk = false) := by simp [hmal]
  have hstop := regReadLoop_stops env k r.len r.reg hk hok hbad
  have hokw' : ∀ i, i < kw → env.writeb (regw + i) (src (0 + i)) = 0 := by
    intro i hi
    rw [Nat.zero_add]
    exact hokw i hi
  have hbadw' : ¬env.writeb (regw + kw) (src (0 + kw)) = 0 := by
    rw [Nat.zero_add]
    exact hbadw
  have hwstop := regWriteLoop_stops env src kw cw regw 0 hkw hokw' hbadw'
  have ew : (fun i => Event.writeb (regw + i) (src (0 + i))) =
      fun i => Event.writeb (regw + i) (src i) := by
    funext i
    rw [Nat.zero_add]
  constructor
  · simp only [besdbg_ioctl, hhdr]
    rw [if_neg hvalid, if_neg hm, reg_read_pos env r.reg r.len (by omega),
      if_pos (by rw [hstop.1]; exact hbad)]
    refine ⟨hstop.1, ?_, rfl⟩
    show ([Event.alloc r.len, Event.claimHost] ++
      (regReadLoop env r.reg r.len).trace ++ [Event.releaseHost]) ++ [Event.free] = _
    rw [hstop.2]
  · rw [reg_write_pos env src regw cw (by omega)]
    refine ⟨?_, ?_⟩
    · rw [hwstop.1, Nat.zero_add]
    · rw [hwstop.2, ew]

/-- The spec's concrete scenario: a bus read failure on the 3rd of 4 register
bytes (and a write failure on the 3rd of 4 bytes for the write codec). -/
def envC6 : Env :=
  { envDefault with
    hdr := some ⟨0, 4, 1⟩,
    readb := fun a => (17, if a < 2 then 0 else -5),
    writeb := fun a _ => if a < 2 then 0 else -5 }

theorem c6_witness :
    ((2 < 4) ∧ ¬(envC6.readb (0 + 2)).2 = 0 ∧
      ¬envC6.writeb (0 + 2) ((fun _ => 9) 2) = 0) ∧
    (besdbg_ioctl envC6 Cmd.regRead).ret = -5 ∧
    (besdbg_ioctl envC6 Cmd.regRead).userOut = none ∧
    countEv isReadb (besdbg_ioctl envC6 Cmd.regRead).trace = 3 ∧
    (bes2600_sdio_reg_write envC6 0 false (fun _ => 9) ((4 : Nat) : Int)).ret = -5 := by
  have h := c6_partial_failure_stops envC6 ⟨0, 4, 1⟩ 2 rfl (by decide) (by decide)
    rfl (by decide) (by decide) (by decide) 2 4 0 (fun _ => 9) (by decide)
    (by decide) (by decide)
  refine ⟨⟨by decide, by decide, by decide⟩, ?_, h.1.2.2, ?_, ?_⟩
  · rw [h.1.1]
    decide
  · rw [h.1.2.1]
    decide
  · rw [h.2.1]
    decide

/-- C7: every successful BlockRead or BlockWrite issues exactly one
block-transfer bus call, at the request's base address with exactly the
requested length — the whole trace is the single block event inside one
alloc/claim … release/free bracket, with no chunking loop. -/
theorem c7_block_single_transfer (env : Env) (r : BesdbgData)
    (hhdr : env.hdr = some r) (hpos : 0 < r.len) (hlen : r.len ≤ 64 * 1024)
    (hdata : r.data ≠ 0) (hmal : env.kmallocOk = true)
    (hbr : env.blockReadRet r.reg r.len = 0)
    (hbw : env.blockWriteRet r.reg r.len = 0)
    (hcopy : env.copyToUserOk = true) (hpay : env.copyPayloadOk = true) :
    ((besdbg_ioctl env Cmd.memRead).ret = 0 ∧
     (besdbg_ioctl env Cmd.memRead).trace =
       [Event.alloc r.len, Event.claimHost, Event.blockRead r.reg r.len,
        Event.releaseHost, Event.free]) ∧
    ((besdbg_ioctl env Cmd.memWrite).ret = 0 ∧
     (besdbg_ioctl env Cmd.memWrite).trace =
       [Event.alloc r.len, Event.claimHost, Event.blockWrite r.reg r.len,
        Event.releaseHost, Event.free]) := by
  have hv1 : ¬(r.len > 1024 * 64 ∨ r.len = 0 ∨ r.data = 0) := by
    push_neg
    exact ⟨by omega, by omega, hdata⟩
  have hv2 : ¬(r.len > 64 * 1024 ∨ r.len = 0 ∨ r.data = 0) := by
    push_neg
    exact ⟨by omega, by omega, hdata⟩
  have hm : ¬(env.kmallocOk = false) := by simp [hmal]
  have hp : ¬(env.copyPayloadOk = false) := by simp [hpay]
  have hc : ¬(env.copyToUserOk = false) := by simp [hcopy]
  constructor
  · simp only [besdbg_ioctl, hhdr]
    rw [if_neg hv1, if_neg hm, if_neg (by rw [hbr]; exact fun hco => hco rfl),
      if_neg hc]
    exact ⟨rfl, rfl⟩
  · simp only [besdbg_ioctl, hhdr]
    rw [if_neg hv2, if_neg hm, if_neg hp,
      if_neg (by rw [hbw]; exact fun hco => hco rfl)]
    exact ⟨rfl, rfl⟩

/-- A 16-byte block request at base address 8 against an all-success bus. -/
def envC7 : Env := { envDefault with hdr := some ⟨8, 16, 1⟩ }

theorem c7_witness :
    ((0 < 16) ∧ envC7.blockReadRet 8 16 = 0 ∧ envC7.blockWriteRet 8 16 = 0) ∧
    (besdbg_ioctl envC7 Cmd.memRead).ret = 0 ∧
    (besdbg_ioctl envC7 Cmd.memRead).trace =
      [Event.alloc 16, Event.claimHost, Event.blockRead 8 16,
       Event.releaseHost, Event.free] ∧
    (besdbg_ioctl envC7 Cmd.memWrite).ret = 0 ∧
    (besdbg_ioctl envC7 Cmd.memWrite).trace =
      [Event.alloc 16, Event.claimHost, Event.blockWrite 8 16,
       Event.releaseHost, Event.free] :=
  have h := c7_block_single_transfer envC7 ⟨8, 16, 1⟩ rfl (by decide) (by decide)
    (by decide) rfl rfl rfl rfl rfl
  ⟨⟨by decide, rfl, rfl⟩, h.1.1, h.1.2, h.2.1, h.2.2⟩
